import Mathlib

/- Shallow embedding of the size-class mapping subsystem of tcmalloc
   (src/tcmalloc/common.h), fixed to the default build model
   (TCMALLOC_PAGE_SHIFT == 13).  Machine integers are modelled as Nat with
   explicit reduction modulo 2^32 where the source casts to uint32_t. -/

namespace TC

/-- Build-model constant kPageShift for the default model (common.h line 134). -/
def kPageShift : Nat := 13

/-- Number of size classes in the default model (common.h line 135). -/
def kNumClasses : Nat := 86

/-- Maximum size serviced by bucket allocators, default model (common.h line 136). -/
def kMaxSize : Nat := 256 * 1024

/-- Minimum-pages threshold used by the fragmentation assertion (common.h line 144). -/
def kMinPages : Nat := 8

/-- Page size, 1 << kPageShift (common.h line 155). -/
def kPageSize : Nat := 1 <<< kPageShift

/-- Threshold below which sizes use 8-byte index granularity (common.h line 271). -/
def kMaxSmallSize : Nat := 1024

/-- Size of the flattened class_array_ (common.h lines 272-273). -/
def kClassArraySize : Nat := ((kMaxSize + 127 + (120 <<< 7)) >>> 7) + 1

/-- Threshold size for the coarser class alignment (common.h line 239). -/
def kMultiPageSize : Nat := 512

/-- Minimum alignment for classes above kMultiPageSize (common.h line 241). -/
def kMultiPageAlignment : Nat := 64

/-- Modulus of the uint32_t arithmetic appearing in ClassIndexMaybe. -/
def u32 : Nat := 2 ^ 32

/-- SizeMap::ClassIndexMaybe (common.h lines 307-320).  The out parameter idx
    together with the returned bool is modelled as an Option: some idx on
    success, none on failure.  The source casts s to uint32_t before the
    arithmetic, hence the explicit mod 2^32. -/
def ClassIndexMaybe (s : Nat) : Option Nat :=
  if s ≤ kMaxSmallSize then
    some (((s % u32 + 7) % u32) >>> 3)
  else if s ≤ kMaxSize then
    some (((s % u32 + 127 + (120 <<< 7)) % u32) >>> 7)
  else
    none

/-- SizeMap::ClassIndex (common.h lines 322-326): same computation, but
    CHECK_CONDITION aborts the process when ClassIndexMaybe fails; the abort
    is modelled as none (no value is ever returned on that path). -/
def ClassIndex (s : Nat) : Option Nat :=
  match ClassIndexMaybe s with
  | some r => some r
  | none => none

/-- Model of the SizeMap state read by the lookup paths: class_array_ is
    unsigned char[kClassArraySize] (common.h line 294) and class_to_size_ is
    uint32_t[kNumClasses] (common.h line 332); both are modelled as total
    functions on Nat. -/
structure SizeMap where
  class_array_ : Nat → Nat
  class_to_size_ : Nat → Nat

/-- SizeMap::class_to_size (common.h lines 436-439). -/
def SizeMap.class_to_size (m : SizeMap) (cl : Nat) : Nat := m.class_to_size_ cl

/-- Plain SizeMap::GetSizeClass (common.h lines 370-378); the bool result and
    the out parameter *cl are modelled as an Option. -/
def SizeMap.GetSizeClass (m : SizeMap) (size : Nat) : Option Nat :=
  match ClassIndexMaybe size with
  | some idx => some (m.class_array_ idx)
  | none => none

/-- The do-while scan of the aligned GetSizeClass overload (common.h lines
    414-419): starting from the current value cl of the out parameter, succeed
    with (true, cl) at the first cl whose class size has no bits in mask,
    advancing while ++*cl < kNumClasses; on exhaustion the result is
    (false, final value of *cl). -/
def SizeMap.alignScan (m : SizeMap) (mask : Nat) (cl : Nat) : Bool × Nat :=
  if m.class_to_size_ cl &&& mask = 0 then (true, cl)
  else if h : cl + 1 < kNumClasses then m.alignScan mask (cl + 1)
  else (false, cl + 1)
termination_by kNumClasses - cl
decreasing_by omega

/-- Aligned SizeMap::GetSizeClass overload (common.h lines 399-422).  cl0 is
    the value held by the out parameter *cl on entry; the result pair is
    (returned bool, final value of *cl). -/
def SizeMap.GetSizeClassAligned (m : SizeMap) (size align cl0 : Nat) : Bool × Nat :=
  if kPageSize ≤ align then (false, cl0)
  else
    match m.GetSizeClass size with
    | none => (false, cl0)
    | some p => m.alignScan (align - 1) p

/-- A SizeMap before Init() has run: the constructor does nothing and the
    static instance is zero-initialized, so both arrays read 0 everywhere. -/
def uninitMap : SizeMap := ⟨fun _ => 0, fun _ => 0⟩

theorem u32_large : (262144 : Nat) + 15487 < u32 := by
  simp only [u32]
  norm_num

theorem shift7 : (120 : Nat) <<< 7 = 15360 := by decide

theorem classIndexMaybe_low {s : Nat} (h : s ≤ 1024) :
    ClassIndexMaybe s = some ((s + 7) / 8) := by
  have hu : s % u32 = s := Nat.mod_eq_of_lt (by simp only [u32]; omega)
  have hu2 : (s + 7) % u32 = s + 7 := Nat.mod_eq_of_lt (by simp only [u32]; omega)
  simp only [ClassIndexMaybe, kMaxSmallSize, if_pos h, hu, hu2,
    Nat.shiftRight_eq_div_pow]

theorem classIndexMaybe_high {s : Nat} (h1 : 1024 < s) (h2 : s ≤ kMaxSize) :
    ClassIndexMaybe s = some ((s + 15487) / 128) := by
  have hmax : s ≤ 262144 := by simpa [kMaxSize] using h2
  have hu : s % u32 = s := Nat.mod_eq_of_lt (by simp only [u32]; omega)
  have hu2 : (s + 127 + 15360) % u32 = s + 15487 := by
    rw [Nat.mod_eq_of_lt (by simp only [u32]; omega)]
  simp only [ClassIndexMaybe, kMaxSmallSize, if_neg (by omega : ¬ s ≤ 1024),
    if_pos h2, hu, shift7, hu2, Nat.shiftRight_eq_div_pow]

theorem classIndexMaybe_none {s : Nat} (h : kMaxSize < s) :
    ClassIndexMaybe s = none := by
  have h1 : ¬ s ≤ kMaxSmallSize := by simp only [kMaxSmallSize]; simp only [kMaxSize] at h; omega
  have h2 : ¬ s ≤ kMaxSize := by omega
  simp only [ClassIndexMaybe, if_neg h1, if_neg h2]

/-- C1: ClassIndexMaybe computes (s + 7) >> 3 for every s ≤ 1024 (yielding
    indices 0..128), computes (s + 127 + (120 << 7)) >> 7 for every
    1025 ≤ s ≤ kMaxSize, and in the kMaxSize = 262144 model maps 0 to 0,
    1024 to 128, 1025 to 129, 32768 to 376, and 262144 to 2168. -/
theorem ClassIndexMaybe_formula :
    (∀ s, s ≤ 1024 →
      ClassIndexMaybe s = some ((s + 7) >>> 3) ∧ (s + 7) >>> 3 ≤ 128) ∧
    (∀ s, 1025 ≤ s → s ≤ kMaxSize →
      ClassIndexMaybe s = some ((s + 127 + (120 <<< 7)) >>> 7)) ∧
    ClassIndexMaybe 0 = some 0 ∧ ClassIndexMaybe 1024 = some 128 ∧
    ClassIndexMaybe 1025 = some 129 ∧ ClassIndexMaybe 32768 = some 376 ∧
    ClassIndexMaybe 262144 = some 2168 := by
  refine ⟨fun s hs => ⟨?_, ?_⟩, fun s hs1 hs2 => ?_, by decide, by decide, by decide,
    by decide, by decide⟩
  · rw [classIndexMaybe_low hs, Nat.shiftRight_eq_div_pow]
  · rw [Nat.shiftRight_eq_div_pow]
    have : (s + 7) / 8 ≤ 1031 / 8 := Nat.div_le_div_right (by omega)
    norm_num at this ⊢
    omega
  · rw [classIndexMaybe_high (by omega) hs2, shift7, Nat.shiftRight_eq_div_pow]

/-- Closed-form witness for ClassIndexMaybe_formula at concrete sizes 8 and 2000. -/
theorem ClassIndexMaybe_formula_witness :
    (ClassIndexMaybe 8 = some ((8 + 7) >>> 3) ∧ (8 + 7) >>> 3 ≤ 128) ∧
    ClassIndexMaybe 2000 = some ((2000 + 127 + (120 <<< 7)) >>> 7) :=
  ⟨ClassIndexMaybe_formula.1 8 (by decide),
   ClassIndexMaybe_formula.2.1 2000 (by decide) (by decide)⟩

theorem classIndexMaybe_isSome {s : Nat} (hs : s ≤ kMaxSize) :
    (ClassIndexMaybe s).isSome = true := by
  by_cases h : s ≤ 1024
  · rw [classIndexMaybe_low h]; rfl
  · rw [classIndexMaybe_high (by omega) hs]; rfl

theorem classIndexMaybe_low_le {s i : Nat} (h : s ≤ 1024)
    (e : ClassIndexMaybe s = some i) : i ≤ 128 := by
  rw [classIndexMaybe_low h] at e
  have ei : (s + 7) / 8 = i := Option.some.inj e
  have h1 : (s + 7) / 8 ≤ 1031 / 8 := Nat.div_le_div_right (by omega)
  have h2 : (1031 : Nat) / 8 = 128 := by norm_num
  omega

theorem classIndexMaybe_high_ge {s i : Nat} (h1 : 1024 < s) (h2 : s ≤ kMaxSize)
    (e : ClassIndexMaybe s = some i) : 129 ≤ i := by
  rw [classIndexMaybe_high h1 h2] at e
  have ei : (s + 15487) / 128 = i := Option.some.inj e
  have h3 : 129 ≤ (s + 15487) / 128 :=
    (Nat.le_div_iff_mul_le (by norm_num)).2 (by omega)
  omega

theorem classIndexMaybe_high_le {s i : Nat} (h1 : 1024 < s) (h2 : s ≤ kMaxSize)
    (e : ClassIndexMaybe s = some i) : i ≤ 2168 := by
  rw [classIndexMaybe_high h1 h2] at e
  have ei : (s + 15487) / 128 = i := Option.some.inj e
  have hs : s ≤ 262144 := by simpa [kMaxSize] using h2
  have h3 : (s + 15487) / 128 ≤ 277631 / 128 := Nat.div_le_div_right (by omega)
  have h4 : (277631 : Nat) / 128 = 2168 := by norm_num
  omega

theorem classIndexMaybe_mono {s1 s2 i1 i2 : Nat} (h12 : s1 ≤ s2) (h2 : s2 ≤ kMaxSize)
    (e1 : ClassIndexMaybe s1 = some i1) (e2 : ClassIndexMaybe s2 = some i2) :
    i1 ≤ i2 := by
  by_cases hb1 : s1 ≤ 1024
  · by_cases hb2 : s2 ≤ 1024
    · rw [classIndexMaybe_low hb1] at e1
      rw [classIndexMaybe_low hb2] at e2
      have ei1 : (s1 + 7) / 8 = i1 := Option.some.inj e1
      have ei2 : (s2 + 7) / 8 = i2 := Option.some.inj e2
      have hdiv : (s1 + 7) / 8 ≤ (s2 + 7) / 8 := Nat.div_le_div_right (by omega)
      omega
    · have hle := classIndexMaybe_low_le hb1 e1
      have hge := classIndexMaybe_high_ge (by omega) h2 e2
      omega
  · by_cases hb2 : s2 ≤ 1024
    · omega
    · rw [classIndexMaybe_high (by omega) (by omega)] at e1
      rw [classIndexMaybe_high (by omega) h2] at e2
      have ei1 : (s1 + 15487) / 128 = i1 := Option.some.inj e1
      have ei2 : (s2 + 15487) / 128 = i2 := Option.some.inj e2
      have hdiv : (s1 + 15487) / 128 ≤ (s2 + 15487) / 128 := Nat.div_le_div_right (by omega)
      omega

/-- C2: ClassIndexMaybe is total on [0, kMaxSize], its index is monotonically
    non-decreasing there, and it fails (returns none) for every s > kMaxSize. -/
theorem ClassIndexMaybe_total_mono :
    (∀ s, s ≤ kMaxSize → (ClassIndexMaybe s).isSome = true) ∧
    (∀ s1 s2 i1 i2, s1 ≤ s2 → s2 ≤ kMaxSize →
      ClassIndexMaybe s1 = some i1 → ClassIndexMaybe s2 = some i2 → i1 ≤ i2) ∧
    (∀ s, kMaxSize < s → ClassIndexMaybe s = none) :=
  ⟨fun _ hs => classIndexMaybe_isSome hs,
   fun _ _ _ _ h12 h2 e1 e2 => classIndexMaybe_mono h12 h2 e1 e2,
   fun _ hs => classIndexMaybe_none hs⟩

/-- Closed witness for ClassIndexMaybe_total_mono: totality at 5, monotonicity
    between 3 and 10, failure at kMaxSize + 1. -/
theorem ClassIndexMaybe_total_mono_witness :
    (ClassIndexMaybe 5).isSome = true ∧ (1 : Nat) ≤ 2 ∧
    ClassIndexMaybe 262145 = none :=
  ⟨ClassIndexMaybe_total_mono.1 5 (by decide),
   ClassIndexMaybe_total_mono.2.1 3 10 1 2 (by decide) (by decide) (by decide)
     (by decide),
   ClassIndexMaybe_total_mono.2.2 262145 (by decide)⟩

/-- C6: ClassIndex returns the same index as ClassIndexMaybe for every size
    s ≤ kMaxSize, and for s > kMaxSize it never returns a value (the
    CHECK_CONDITION abort is modelled as none). -/
theorem ClassIndex_spec :
    (∀ s, s ≤ kMaxSize →
      ClassIndex s = ClassIndexMaybe s ∧ (ClassIndex s).isSome = true) ∧
    (∀ s, kMaxSize < s → ClassIndex s = none) := by
  have key : ∀ s, ClassIndex s = ClassIndexMaybe s := by
    intro s
    unfold ClassIndex
    cases ClassIndexMaybe s <;> rfl
  refine ⟨fun s hs => ⟨key s, ?_⟩, fun s hs => ?_⟩
  · rw [key s]
    exact classIndexMaybe_isSome hs
  · rw [key s]
    exact classIndexMaybe_none hs

/-- Closed witness for ClassIndex_spec at sizes 100 and 262145. -/
theorem ClassIndex_spec_witness :
    (ClassIndex 100 = ClassIndexMaybe 100 ∧ (ClassIndex 100).isSome = true) ∧
    ClassIndex 262145 = none :=
  ⟨ClassIndex_spec.1 100 (by decide), ClassIndex_spec.2 262145 (by decide)⟩

/-- C7: kClassArraySize is ((kMaxSize + 127 + (120 << 7)) >> 7) + 1, and every
    index ClassIndexMaybe produces for a size s ≤ kMaxSize is strictly below
    kClassArraySize, so the class_array_ read in GetSizeClass is in bounds. -/
theorem kClassArraySize_spec :
    kClassArraySize = ((kMaxSize + 127 + (120 <<< 7)) >>> 7) + 1 ∧
    ∀ s i, s ≤ kMaxSize → ClassIndexMaybe s = some i → i < kClassArraySize := by
  refine ⟨rfl, fun s i hs e => ?_⟩
  have hk : kClassArraySize = 2169 := by decide
  by_cases h : s ≤ 1024
  · have := classIndexMaybe_low_le h e
    omega
  · have := classIndexMaybe_high_le (by omega) hs e
    omega

/-- Closed witness for kClassArraySize_spec: the index for size 262144 is in
    bounds. -/
theorem kClassArraySize_spec_witness : (2168 : Nat) < kClassArraySize :=
  kClassArraySize_spec.2 262144 2168 (by decide) (by decide)

/-- C3: the plain GetSizeClass fails exactly when size > kMaxSize; on success
    it returns class_array_[ClassIndexMaybe(size)]; and on the uninitialized
    (all-zero) SizeMap it returns the sentinel class id 0 for every in-range
    size. -/
theorem GetSizeClass_spec (m : SizeMap) (size : Nat) :
    (m.GetSizeClass size = none ↔ kMaxSize < size) ∧
    (∀ i, ClassIndexMaybe size = some i →
      m.GetSizeClass size = some (m.class_array_ i)) ∧
    (size ≤ kMaxSize → uninitMap.GetSizeClass size = some 0) := by
  refine ⟨⟨fun hn => ?_, fun hgt => ?_⟩, fun i e => ?_, fun hle => ?_⟩
  · by_contra hgt
    have := classIndexMaybe_isSome (s := size) (by omega)
    unfold SizeMap.GetSizeClass at hn
    cases he : ClassIndexMaybe size with
    | none => rw [he] at this; simp at this
    | some j => rw [he] at hn; simp at hn
  · unfold SizeMap.GetSizeClass
    rw [classIndexMaybe_none hgt]
  · unfold SizeMap.GetSizeClass
    rw [e]
  · have := classIndexMaybe_isSome hle
    unfold SizeMap.GetSizeClass
    cases he : ClassIndexMaybe size with
    | none => rw [he] at this; simp at this
    | some j => rfl

/-- Closed witness for GetSizeClass_spec on the uninitialized map at size 32. -/
theorem GetSizeClass_spec_witness :
    uninitMap.GetSizeClass 32 = some (uninitMap.class_array_ 4) ∧
    uninitMap.GetSizeClass 32 = some 0 :=
  ⟨(GetSizeClass_spec uninitMap 32).2.1 4 (by decide),
   (GetSizeClass_spec uninitMap 32).2.2 (by decide)⟩

/-- One of the four compile-time models of common.h: the constants that the
    static_assert at lines 166-167 relates. -/
structure BuildModel where
  pageShift : Nat
  numClasses : Nat
  maxSize : Nat
  minPages : Nat

/-- TCMALLOC_PAGE_SHIFT == 12 (TCMALLOC_SMALL_BUT_SLOW, common.h 98-108). -/
def modelSmallButSlow : BuildModel := ⟨12, 46, 8 <<< 10, 2⟩

/-- TCMALLOC_PAGE_SHIFT == 15 (TCMALLOC_LARGE_PAGES, common.h 109-120). -/
def modelLargePages : BuildModel := ⟨15, 78, 256 * 1024, 8⟩

/-- TCMALLOC_PAGE_SHIFT == 18 (TCMALLOC_256K_PAGES, common.h 121-132). -/
def model256K : BuildModel := ⟨18, 89, 256 * 1024, 8⟩

/-- TCMALLOC_PAGE_SHIFT == 13 (default model, common.h 133-144). -/
def modelDefault : BuildModel := ⟨13, 86, 256 * 1024, 8⟩

/-- Page size of a build model, 1 << kPageShift (common.h line 155). -/
def BuildModel.pageSize (b : BuildModel) : Nat := 1 <<< b.pageShift

/-- C9: in each of the four build-time models the static_assert of common.h
    lines 166-167 holds: kMaxSize / kPageSize ≥ kMinPages, or kPageShift ≥ 18. -/
theorem staticAssert_all_models :
    (modelSmallButSlow.minPages ≤ modelSmallButSlow.maxSize / modelSmallButSlow.pageSize ∨
      18 ≤ modelSmallButSlow.pageShift) ∧
    (modelDefault.minPages ≤ modelDefault.maxSize / modelDefault.pageSize ∨
      18 ≤ modelDefault.pageShift) ∧
    (modelLargePages.minPages ≤ modelLargePages.maxSize / modelLargePages.pageSize ∨
      18 ≤ modelLargePages.pageShift) ∧
    (model256K.minPages ≤ model256K.maxSize / model256K.pageSize ∨
      18 ≤ model256K.pageShift) := by
  decide

theorem getSizeClass_none (m : SizeMap) {size : Nat} (h : kMaxSize < size) :
    m.GetSizeClass size = none := by
  unfold SizeMap.GetSizeClass
  rw [classIndexMaybe_none h]

theorem alignScan_unfold (m : SizeMap) (mask cl : Nat) :
    m.alignScan mask cl =
      if m.class_to_size_ cl &&& mask = 0 then (true, cl)
      else if cl + 1 < kNumClasses then m.alignScan mask (cl + 1)
      else (false, cl + 1) := by
  rw [SizeMap.alignScan]
  simp only [dite_eq_ite]

theorem getSizeClassAligned_eq_scan (m : SizeMap) (size align cl0 p : Nat)
    (hlt : align < kPageSize) (hp : m.GetSizeClass size = some p) :
    m.GetSizeClassAligned size align cl0 = m.alignScan (align - 1) p := by
  rw [SizeMap.GetSizeClassAligned, if_neg (by omega), hp]

theorem alignScan_success_aux (m : SizeMap) (mask : Nat) :
    ∀ n cl r, kNumClasses ≤ cl + n → m.alignScan mask cl = (true, r) →
      cl ≤ r ∧ m.class_to_size_ r &&& mask = 0 ∧
      ∀ c, cl ≤ c → c < r → m.class_to_size_ c &&& mask ≠ 0 := by
  intro n
  induction n with
  | zero =>
    intro cl r hn he
    rw [alignScan_unfold] at he
    by_cases ht : m.class_to_size_ cl &&& mask = 0
    · rw [if_pos ht] at he
      obtain ⟨rfl⟩ : cl = r := by
        have := congrArg Prod.snd he
        simpa using this
      exact ⟨le_refl _, ht, fun c hc1 hc2 => absurd (lt_of_le_of_lt hc1 hc2) (lt_irrefl _)⟩
    · rw [if_neg ht, if_neg (by omega : ¬ cl + 1 < kNumClasses)] at he
      exact absurd (congrArg Prod.fst he) (by simp)
  | succ n ih =>
    intro cl r hn he
    rw [alignScan_unfold] at he
    by_cases ht : m.class_to_size_ cl &&& mask = 0
    · rw [if_pos ht] at he
      obtain ⟨rfl⟩ : cl = r := by
        have := congrArg Prod.snd he
        simpa using this
      exact ⟨le_refl _, ht, fun c hc1 hc2 => absurd (lt_of_le_of_lt hc1 hc2) (lt_irrefl _)⟩
    · rw [if_neg ht] at he
      by_cases hc : cl + 1 < kNumClasses
      · rw [if_pos hc] at he
        obtain ⟨h1, h2, h3⟩ := ih (cl + 1) r (by omega) he
        refine ⟨by omega, h2, fun c hc1 hc2 => ?_⟩
        rcases Nat.eq_or_lt_of_le hc1 with hcc | hcc
        · rw [← hcc]; exact ht
        · exact h3 c (by omega) hc2
      · rw [if_neg hc] at he
        exact absurd (congrArg Prod.fst he) (by simp)

theorem alignScan_failure_aux (m : SizeMap) (mask : Nat) :
    ∀ n cl r, kNumClasses ≤ cl + n → cl < kNumClasses →
      m.alignScan mask cl = (false, r) →
      r = kNumClasses ∧
      ∀ c, cl ≤ c → c < kNumClasses → m.class_to_size_ c &&& mask ≠ 0 := by
  intro n
  induction n with
  | zero => intro cl r hn hcl he; omega
  | succ n ih =>
    intro cl r hn hcl he
    rw [alignScan_unfold] at he
    by_cases ht : m.class_to_size_ cl &&& mask = 0
    · rw [if_pos ht] at he
      exact absurd (congrArg Prod.fst he) (by simp)
    · rw [if_neg ht] at he
      by_cases hc : cl + 1 < kNumClasses
      · rw [if_pos hc] at he
        obtain ⟨h1, h2⟩ := ih (cl + 1) r (by omega) hc he
        refine ⟨h1, fun c hc1 hc2 => ?_⟩
        rcases Nat.eq_or_lt_of_le hc1 with hcc | hcc
        · rw [← hcc]; exact ht
        · exact h2 c (by omega) hc2
      · rw [if_neg hc] at he
        have hr : cl + 1 = r := by
          have := congrArg Prod.snd he
          simpa using this
        refine ⟨by omega, fun c hc1 hc2 => ?_⟩
        have : c = cl := by omega
        rw [this]; exact ht

theorem alignScan_exhaust_aux (m : SizeMap) (mask : Nat) :
    ∀ n cl, kNumClasses ≤ cl + n → cl < kNumClasses →
      (∀ c, cl ≤ c → c < kNumClasses → m.class_to_size_ c &&& mask ≠ 0) →
      (m.alignScan mask cl).fst = false := by
  intro n
  induction n with
  | zero => intro cl hn hcl hno; omega
  | succ n ih =>
    intro cl hn hcl hno
    rw [alignScan_unfold]
    rw [if_neg (hno cl (le_refl _) hcl)]
    by_cases hc : cl + 1 < kNumClasses
    · rw [if_pos hc]
      exact ih (cl + 1) (by omega) hc (fun c hc1 hc2 => hno c (by omega) hc2)
    · rw [if_neg hc]

/-- C4: for every size and power-of-two alignment 2^k, the aligned GetSizeClass
    overload fails immediately (with *cl untouched) when 2^k ≥ kPageSize, fails
    when size > kMaxSize, and otherwise scans forward from the plain-lookup
    class id p: on success the returned class id r is the first id ≥ p whose
    canonical size satisfies class_to_size(r) mod 2^k = 0, and it fails exactly
    when no class id in [p, kNumClasses) has a size divisible by 2^k. -/
theorem GetSizeClassAligned_spec (m : SizeMap) (size k cl0 : Nat) :
    (kPageSize ≤ 2 ^ k → m.GetSizeClassAligned size (2 ^ k) cl0 = (false, cl0)) ∧
    (2 ^ k < kPageSize → kMaxSize < size →
      m.GetSizeClassAligned size (2 ^ k) cl0 = (false, cl0)) ∧
    (∀ p, 2 ^ k < kPageSize → m.GetSizeClass size = some p → p < kNumClasses →
      (∀ r, m.GetSizeClassAligned size (2 ^ k) cl0 = (true, r) →
        m.class_to_size r % 2 ^ k = 0 ∧ p ≤ r ∧
        ∀ c, p ≤ c → c < r → m.class_to_size c % 2 ^ k ≠ 0) ∧
      ((m.GetSizeClassAligned size (2 ^ k) cl0).fst = false ↔
        ∀ c, p ≤ c → c < kNumClasses → m.class_to_size c % 2 ^ k ≠ 0)) := by
  have hmod : ∀ c, m.class_to_size_ c &&& (2 ^ k - 1) = m.class_to_size_ c % 2 ^ k :=
    fun c => Nat.and_pow_two_sub_one_eq_mod (m.class_to_size_ c) k
  refine ⟨fun hge => ?_, fun hlt hsz => ?_, fun p hlt hp hpn => ⟨fun r hr => ?_, ?_, ?_⟩⟩
  · rw [SizeMap.GetSizeClassAligned, if_pos hge]
  · rw [SizeMap.GetSizeClassAligned, if_neg (by omega), getSizeClass_none m hsz]
  · rw [getSizeClassAligned_eq_scan m size (2 ^ k) cl0 p (by omega) hp] at hr
    obtain ⟨h1, h2, h3⟩ := alignScan_success_aux m (2 ^ k - 1) kNumClasses p r
      (by omega) hr
    exact ⟨by rw [SizeMap.class_to_size, ← hmod r]; exact h2, h1,
      fun c hc1 hc2 => by rw [SizeMap.class_to_size, ← hmod c]; exact h3 c hc1 hc2⟩
  · intro hf c hc1 hc2
    rw [getSizeClassAligned_eq_scan m size (2 ^ k) cl0 p (by omega) hp] at hf
    cases he : m.alignScan (2 ^ k - 1) p with
    | mk b r =>
      rw [he] at hf
      have hb : b = false := hf
      subst hb
      obtain ⟨h1, h2⟩ := alignScan_failure_aux m (2 ^ k - 1) kNumClasses p r
        (by omega) hpn he
      rw [SizeMap.class_to_size, ← hmod c]
      exact h2 c hc1 hc2
  · intro hno
    rw [getSizeClassAligned_eq_scan m size (2 ^ k) cl0 p (by omega) hp]
    exact alignScan_exhaust_aux m (2 ^ k - 1) kNumClasses p (by omega) hpn
      (fun c hc1 hc2 => by rw [hmod c]; exact hno c hc1 hc2)

/-- A SizeMap state in which every class size is 1 byte; no class size is
    divisible by 2, so alignment scans with align = 2 always exhaust. -/
def oddMap : SizeMap := ⟨fun _ => 0, fun _ => 1⟩

/-- Closed witness for GetSizeClassAligned_spec: the immediate-failure path at
    align = 2^13 = kPageSize, the size > kMaxSize path at align 1, and a
    successful scan on the uninitialized map at size 16, align 8. -/
theorem GetSizeClassAligned_spec_witness :
    uninitMap.GetSizeClassAligned 300000 (2 ^ 13) 5 = (false, 5) ∧
    uninitMap.GetSizeClassAligned 300000 (2 ^ 0) 5 = (false, 5) ∧
    (uninitMap.class_to_size 0 % 2 ^ 3 = 0 ∧ (0 : Nat) ≤ 0) := by
  have h1 := (GetSizeClassAligned_spec uninitMap 300000 13 5).1 (by decide)
  have h2 := (GetSizeClassAligned_spec uninitMap 300000 0 5).2.1 (by decide) (by decide)
  have h3 := ((GetSizeClassAligned_spec uninitMap 16 3 5).2.2 0 (by decide)
    (by decide) (by decide)).1
  have he : uninitMap.GetSizeClassAligned 16 (2 ^ 3) 5 = (true, 0) := by
    rw [getSizeClassAligned_eq_scan uninitMap 16 (2 ^ 3) 5 0 (by decide)
      (by decide : uninitMap.GetSizeClass 16 = some 0)]
    rw [alignScan_unfold]
    norm_num [uninitMap]
  exact ⟨h1, h2, (h3 0 he).1, (h3 0 he).2.1⟩

/-- C5: calling the aligned overload with align = 1 yields exactly the plain
    lookup's behaviour: the same success/failure result and the same class id
    (and the out parameter untouched on failure). -/
theorem GetSizeClassAligned_one (m : SizeMap) (size cl0 : Nat) :
    m.GetSizeClassAligned size 1 cl0 =
      match m.GetSizeClass size with
      | some c => (true, c)
      | none => (false, cl0) := by
  cases h : m.GetSizeClass size with
  | none =>
    rw [SizeMap.GetSizeClassAligned, if_neg (by decide : ¬ kPageSize ≤ 1), h]
  | some p =>
    rw [getSizeClassAligned_eq_scan m size 1 cl0 p (by decide) h]
    show m.alignScan 0 p = (true, p)
    rw [alignScan_unfold]
    simp [Nat.and_zero]

/-- C10: when the aligned overload fails by exhausting the forward scan it
    leaves the out parameter *cl equal to kNumClasses; on the other two failure
    paths (align ≥ kPageSize, or size > kMaxSize) *cl keeps its incoming
    value. -/
theorem GetSizeClassAligned_failure_out (m : SizeMap) (size align cl0 : Nat) :
    (kPageSize ≤ align → m.GetSizeClassAligned size align cl0 = (false, cl0)) ∧
    (align < kPageSize → kMaxSize < size →
      m.GetSizeClassAligned size align cl0 = (false, cl0)) ∧
    (align < kPageSize → ∀ p, m.GetSizeClass size = some p → p < kNumClasses →
      (m.GetSizeClassAligned size align cl0).fst = false →
      m.GetSizeClassAligned size align cl0 = (false, kNumClasses)) := by
  refine ⟨fun hge => ?_, fun hlt hsz => ?_, fun hlt p hp hpn hf => ?_⟩
  · rw [SizeMap.GetSizeClassAligned, if_pos hge]
  · rw [SizeMap.GetSizeClassAligned, if_neg (by omega), getSizeClass_none m hsz]
  · rw [getSizeClassAligned_eq_scan m size align cl0 p (by omega) hp] at hf ⊢
    cases he : m.alignScan (align - 1) p with
    | mk b r =>
      rw [he] at hf
      have hb : b = false := hf
      subst hb
      obtain ⟨h1, _⟩ := alignScan_failure_aux m (align - 1) kNumClasses p r
        (by omega) hpn he
      rw [h1]

/-- Closed witness for GetSizeClassAligned_failure_out: both untouched-*cl
    failure paths, and scan exhaustion on a map whose class sizes are all odd,
    which ends with *cl = kNumClasses. -/
theorem GetSizeClassAligned_failure_out_witness :
    uninitMap.GetSizeClassAligned 16 8192 5 = (false, 5) ∧
    uninitMap.GetSizeClassAligned 300000 4 5 = (false, 5) ∧
    oddMap.GetSizeClassAligned 16 2 5 = (false, kNumClasses) := by
  have h1 := (GetSizeClassAligned_failure_out uninitMap 16 8192 5).1 (by decide)
  have h2 := (GetSizeClassAligned_failure_out uninitMap 300000 4 5).2.1 (by decide)
    (by decide)
  have hf : (oddMap.GetSizeClassAligned 16 2 5).fst = false := by
    rw [getSizeClassAligned_eq_scan oddMap 16 2 5 0 (by decide)
      (by decide : oddMap.GetSizeClass 16 = some 0)]
    exact alignScan_exhaust_aux oddMap 1 kNumClasses 0 (by omega)
      (by decide) (fun c hc1 hc2 => by show (1 : Nat) &&& 1 ≠ 0; decide)
  have h3 := (GetSizeClassAligned_failure_out oddMap 16 2 5).2.2 (by decide) 0
    (by decide) (by decide) hf
  exact ⟨h1, h2, h3⟩

/-- Modelled from the spec: the smallest byte size mapping to class-index i.
    The table construction in Init()/SetSizeClasses lives in common.cc /
    size_classes.cc, which are not part of src/; spec section 4.3 describes it
    in terms of "the smallest size that maps to index i", given here in closed
    form (index 0 is size 0; indices 1..128 start at 8(i-1)+1; indices 129 and
    beyond start at 128(i-121)+1). -/
def smallestSizeFor (i : Nat) : Nat :=
  if i = 0 then 0
  else if i ≤ 128 then 8 * (i - 1) + 1
  else 128 * (i - 121) + 1

/-- Modelled from the spec: the postcondition of the class_array_ construction
    of section 4.3 — at every index i of the class-index space, class_array_
    holds the smallest class id whose canonical size is at least the smallest
    size that maps to index i (and class ids stored are valid, as validation
    guarantees). -/
def InitializedFromSpec (m : SizeMap) : Prop :=
  ∀ i, i < kClassArraySize →
    m.class_array_ i < kNumClasses ∧
    smallestSizeFor i ≤ m.class_to_size_ (m.class_array_ i) ∧
    ∀ cl, cl < m.class_array_ i → m.class_to_size_ cl < smallestSizeFor i

/-- Modelled from the spec: the size-related validation requirements of
    section 4.3 — kNumClasses entries with sizes strictly increasing from
    entry to entry (class 0 a zero sentinel), last entry's size kMaxSize, and
    each size a multiple of its required alignment: 8 bytes for sizes up to
    kMultiPageSize, kMultiPageAlignment (64) bytes above. -/
def ValidSizes (m : SizeMap) : Prop :=
  (∀ cl, cl < kNumClasses - 1 → m.class_to_size_ cl < m.class_to_size_ (cl + 1)) ∧
  m.class_to_size_ 0 = 0 ∧
  m.class_to_size_ (kNumClasses - 1) = kMaxSize ∧
  ∀ cl, cl < kNumClasses →
    (m.class_to_size_ cl ≤ kMultiPageSize → m.class_to_size_ cl % 8 = 0) ∧
    (kMultiPageSize < m.class_to_size_ cl →
      m.class_to_size_ cl % kMultiPageAlignment = 0)

/-- Modelled from the spec: the search for the smallest class id whose
    canonical size is at least t, scanning class ids upward from cl;
    kNumClasses is returned when no class is large enough. -/
def findCover (f : Nat → Nat) (t : Nat) (cl : Nat) : Nat :=
  if t ≤ f cl then cl
  else if h : cl + 1 < kNumClasses then findCover f t (cl + 1)
  else kNumClasses
termination_by kNumClasses - cl
decreasing_by omega

/-- Modelled from the spec: a SizeMap whose class_to_size_ table is f and whose
    class_array_ is populated exactly as section 4.3 prescribes. -/
def buildMap (f : Nat → Nat) : SizeMap :=
  ⟨fun i => findCover f (smallestSizeFor i) 0, f⟩

theorem findCover_unfold (f : Nat → Nat) (t cl : Nat) :
    findCover f t cl =
      if t ≤ f cl then cl
      else if cl + 1 < kNumClasses then findCover f t (cl + 1)
      else kNumClasses := by
  rw [findCover]
  simp only [dite_eq_ite]

theorem findCover_spec (f : Nat → Nat) (t : Nat) :
    ∀ n cl, kNumClasses ≤ cl + n →
      (∃ c, cl ≤ c ∧ c < kNumClasses ∧ t ≤ f c) →
      findCover f t cl < kNumClasses ∧ t ≤ f (findCover f t cl) ∧
      ∀ c, cl ≤ c → c < findCover f t cl → f c < t := by
  intro n
  induction n with
  | zero =>
    intro cl hn hex
    obtain ⟨c, hc1, hc2, _⟩ := hex
    omega
  | succ n ih =>
    intro cl hn hex
    rw [findCover_unfold]
    by_cases ht : t ≤ f cl
    · rw [if_pos ht]
      obtain ⟨c, hc1, hc2, _⟩ := hex
      exact ⟨by omega, ht, fun c hcc1 hcc2 => by omega⟩
    · rw [if_neg ht]
      obtain ⟨c, hc1, hc2, hc3⟩ := hex
      have hcne : c ≠ cl := fun hcc => ht (hcc ▸ hc3)
      by_cases hcl : cl + 1 < kNumClasses
      · rw [if_pos hcl]
        obtain ⟨h1, h2, h3⟩ := ih (cl + 1) (by omega) ⟨c, by omega, hc2, hc3⟩
        refine ⟨h1, h2, fun d hd1 hd2 => ?_⟩
        rcases Nat.eq_or_lt_of_le hd1 with hdd | hdd
        · rw [← hdd]; omega
        · exact h3 d (by omega) hd2
      · omega

theorem smallestSizeFor_le_max {i : Nat} (hi : i < kClassArraySize) :
    smallestSizeFor i ≤ kMaxSize := by
  have hk : kClassArraySize = 2169 := by decide
  have hM : kMaxSize = 262144 := by decide
  unfold smallestSizeFor
  split_ifs <;> omega

theorem buildMap_initialized (f : Nat → Nat)
    (hlast : f (kNumClasses - 1) = kMaxSize) :
    InitializedFromSpec (buildMap f) := by
  intro i hi
  have hsm : smallestSizeFor i ≤ kMaxSize := smallestSizeFor_le_max hi
  have hex : ∃ c, 0 ≤ c ∧ c < kNumClasses ∧ smallestSizeFor i ≤ f c :=
    ⟨kNumClasses - 1, Nat.zero_le _, by decide, by rw [hlast]; exact hsm⟩
  obtain ⟨h1, h2, h3⟩ := findCover_spec f (smallestSizeFor i) kNumClasses 0
    (by omega) hex
  exact ⟨h1, h2, fun cl hcl => h3 cl (Nat.zero_le _) hcl⟩

theorem smallestSizeFor_le_of_index {s i : Nat} (hs : s ≤ kMaxSize)
    (e : ClassIndexMaybe s = some i) : smallestSizeFor i ≤ s := by
  by_cases hb : s ≤ 1024
  · rw [classIndexMaybe_low hb] at e
    have ei : (s + 7) / 8 = i := Option.some.inj e
    by_cases hz : s = 0
    · subst hz
      have : i = 0 := by omega
      rw [this]
      simp [smallestSizeFor]
    · have hi1 : 1 ≤ i := by
        have : 8 * 1 ≤ s + 7 := by omega
        have := (Nat.le_div_iff_mul_le (by norm_num)).2 (by omega : 1 * 8 ≤ s + 7)
        omega
      have hi128 : i ≤ 128 := by
        have h1 : (s + 7) / 8 ≤ 1031 / 8 := Nat.div_le_div_right (by omega)
        have h2 : (1031 : Nat) / 8 = 128 := by norm_num
        omega
      have hmul : 8 * i ≤ s + 7 := by
        have := Nat.div_mul_le_self (s + 7) 8
        omega
      unfold smallestSizeFor
      rw [if_neg (by omega), if_pos hi128]
      omega
  · rw [classIndexMaybe_high (by omega) hs] at e
    have ei : (s + 15487) / 128 = i := Option.some.inj e
    have hi129 : 129 ≤ i := by
      have := (Nat.le_div_iff_mul_le (by norm_num : (0:Nat) < 128)).2
        (by omega : 129 * 128 ≤ s + 15487)
      omega
    have hmul : 128 * i ≤ s + 15487 := by
      have := Nat.div_mul_le_self (s + 15487) 128
      omega
    unfold smallestSizeFor
    rw [if_neg (by omega), if_neg (by omega)]
    omega

/-- C8 amended: for every s ≤ kMaxSize, on a SizeMap whose size table passes
    the spec's validation, whose class sizes above kMaxSmallSize (1024) are
    additionally multiples of 128 (as the shipped tables are), and whose
    class_array_ is populated as spec section 4.3 prescribes, the plain lookup
    never under-allocates: class_to_size(classFor(s)) ≥ s. -/
theorem GetSizeClass_never_under_allocates (m : SizeMap)
    (hv : ValidSizes m)
    (h128 : ∀ cl, cl < kNumClasses → kMaxSmallSize < m.class_to_size_ cl →
      m.class_to_size_ cl % 128 = 0)
    (hinit : InitializedFromSpec m) :
    ∀ s, s ≤ kMaxSize → ∃ cl, m.GetSizeClass s = some cl ∧
      s ≤ m.class_to_size cl := by
  intro s hs
  have hsome := classIndexMaybe_isSome hs
  cases he : ClassIndexMaybe s with
  | none => rw [he] at hsome; simp at hsome
  | some i =>
    have hib : i < kClassArraySize := by
      have hk : kClassArraySize = 2169 := by decide
      by_cases hb : s ≤ 1024
      · have := classIndexMaybe_low_le hb he
        omega
      · have := classIndexMaybe_high_le (by omega) hs he
        omega
    obtain ⟨hcl, hcov, _⟩ := hinit i hib
    refine ⟨m.class_array_ i, ?_, ?_⟩
    · unfold SizeMap.GetSizeClass
      rw [he]
    · rw [SizeMap.class_to_size]
      set c := m.class_to_size_ (m.class_array_ i) with hc
      have halign := (hv.2.2.2 (m.class_array_ i) hcl)
      have h8 : c % 8 = 0 := by
        by_cases hbig : c ≤ kMultiPageSize
        · exact halign.1 hbig
        · have h64 : c % kMultiPageAlignment = 0 := halign.2 (by omega)
          have : kMultiPageAlignment = 64 := by decide
          rw [this] at h64
          omega
      by_cases hb : s ≤ 1024
      · rw [classIndexMaybe_low hb] at he
        have ei : (s + 7) / 8 = i := Option.some.inj he
        by_cases hz : s = 0
        · omega
        · have hi1 : 1 ≤ i := by
            have := (Nat.le_div_iff_mul_le (by norm_num : (0:Nat) < 8)).2
              (by omega : 1 * 8 ≤ s + 7)
            omega
          have hi128 : i ≤ 128 := by
            have h1 : (s + 7) / 8 ≤ 1031 / 8 := Nat.div_le_div_right (by omega)
            have h2 : (1031 : Nat) / 8 = 128 := by norm_num
            omega
          have hsm : smallestSizeFor i = 8 * (i - 1) + 1 := by
            unfold smallestSizeFor
            rw [if_neg (by omega), if_pos hi128]
          rw [hsm] at hcov
          have hup : s + 7 < 8 * (i + 1) := by
            have h1 := Nat.div_add_mod (s + 7) 8
            have h2 : (s + 7) % 8 < 8 := Nat.mod_lt _ (by norm_num)
            omega
          omega
      · rw [classIndexMaybe_high (by omega) hs] at he
        have ei : (s + 15487) / 128 = i := Option.some.inj he
        have hi129 : 129 ≤ i := by
          have := (Nat.le_div_iff_mul_le (by norm_num : (0:Nat) < 128)).2
            (by omega : 129 * 128 ≤ s + 15487)
          omega
        have hsm : smallestSizeFor i = 128 * (i - 121) + 1 := by
          unfold smallestSizeFor
          rw [if_neg (by omega), if_neg (by omega)]
        rw [hsm] at hcov
        have hcbig : kMaxSmallSize < c := by
          have : kMaxSmallSize = 1024 := by decide
          omega
        have hc128 : c % 128 = 0 := h128 (m.class_array_ i) hcl hcbig
        have hup : s + 15487 < 128 * (i + 1) := by
          have h1 := Nat.div_add_mod (s + 15487) 128
          have h2 : (s + 15487) % 128 < 128 := Nat.mod_lt _ (by norm_num)
          omega
        omega

/-- A concrete class-size table that passes the spec's validation (strictly
    increasing, 8-byte aligned up to 512, 64-byte aligned above, last entry
    kMaxSize) but contains the size 1088, which is above 1024 yet not a
    multiple of 128. -/
def cexSizes : List Nat :=
  [0, 8, 16, 24, 32, 40, 48, 56, 64, 72, 80, 88, 96, 104, 112, 120, 128, 136,
   144, 152, 160, 168, 176, 184, 192, 200, 208, 216, 224, 232, 240, 248, 256,
   264, 272, 280, 288, 296, 304, 312, 320, 328, 336, 344, 352, 360, 368, 376,
   384, 392, 400, 408, 416, 424, 432, 440, 448, 456, 464, 472, 480, 488, 496,
   504, 512, 576, 640, 704, 768, 832, 896, 960, 1024, 1088, 1152, 1216, 1280,
   1344, 1408, 1472, 1536, 1600, 1664, 1728, 1792, 262144]

/-- The class-size function of the counterexample table. -/
def cexF : Nat → Nat := fun cl => cexSizes.getD cl 0

/-- The counterexample SizeMap: class_array_ built exactly as the spec's
    section 4.3 prescribes over the cexSizes table. -/
def cexMap : SizeMap := buildMap cexF

theorem cexMap_class_array_129 : cexMap.class_array_ 129 = 73 := by
  obtain ⟨h1, h2, h3⟩ := buildMap_initialized cexF (by decide) 129 (by decide)
  have hsm : smallestSizeFor 129 = 1025 := by decide
  have hcs : (buildMap cexF).class_to_size_ = cexF := rfl
  rw [hsm, hcs] at h2
  rw [hsm] at h3
  rw [hcs] at h3
  have h73 : (1025 : Nat) ≤ cexF 73 := by decide
  have hlt : ∀ cl, cl < 73 → cexF cl < 1025 := by decide
  rcases Nat.lt_trichotomy ((buildMap cexF).class_array_ 129) 73 with hc | hc | hc
  · exact absurd h2 (by have := hlt _ hc; omega)
  · exact hc
  · exact absurd (h3 73 hc) (by omega)

/-- C8 counterexample: cexMap satisfies the spec-modelled validation and the
    spec-modelled class_array_ construction, size 1100 is in range, yet the
    plain lookup returns class 73 whose canonical size is 1088 < 1100 — the
    mapping under-allocates, refuting the claim as stated. -/
theorem GetSizeClass_under_allocates_counterexample :
    ValidSizes cexMap ∧ InitializedFromSpec cexMap ∧ (1100 : Nat) ≤ kMaxSize ∧
    cexMap.GetSizeClass 1100 = some 73 ∧ cexMap.class_to_size 73 = 1088 ∧
    ¬ (1100 : Nat) ≤ cexMap.class_to_size 73 := by
  refine ⟨?_, buildMap_initialized cexF (by decide), by decide, ?_, by decide, ?_⟩
  · refine ⟨?_, by decide, by decide, ?_⟩
    · decide
    · decide
  · have hidx : ClassIndexMaybe 1100 = some 129 := by decide
    unfold SizeMap.GetSizeClass
    rw [hidx]
    show some (cexMap.class_array_ 129) = some 73
    rw [cexMap_class_array_129]
  · have : cexMap.class_to_size 73 = 1088 := by decide
    omega

/-- A concrete class-size table with every size above 1024 a multiple of 128,
    passing the spec's validation; used to instantiate the amended claim. -/
def goodSizes : List Nat :=
  [0, 8, 16, 24, 32, 40, 48, 56, 64, 72, 80, 88, 96, 104, 112, 120, 128, 136,
   144, 152, 160, 168, 176, 184, 192, 200, 208, 216, 224, 232, 240, 248, 256,
   264, 272, 280, 288, 296, 304, 312, 320, 328, 336, 344, 352, 360, 368, 376,
   384, 392, 400, 408, 416, 424, 432, 440, 448, 456, 464, 472, 480, 488, 496,
   504, 512, 576, 640, 704, 768, 832, 896, 960, 1024, 1152, 1280, 1408, 1536,
   1664, 1792, 1920, 2048, 2176, 2304, 2432, 2560, 262144]

/-- The class-size function of the goodSizes table. -/
def goodF : Nat → Nat := fun cl => goodSizes.getD cl 0

/-- SizeMap built over goodSizes by the spec's construction. -/
def goodMap : SizeMap := buildMap goodF

/-- Closed witness for GetSizeClass_never_under_allocates: on goodMap (which
    satisfies validation, the 128-multiple condition, and the spec
    construction) the lookup for size 1000 yields a class at least 1000 bytes
    wide. -/
theorem GetSizeClass_never_under_allocates_witness :
    ∃ cl, goodMap.GetSizeClass 1000 = some cl ∧
      1000 ≤ goodMap.class_to_size cl :=
  GetSizeClass_never_under_allocates goodMap
    ⟨by decide, by decide, by decide, by decide⟩
    (by decide)
    (buildMap_initialized goodF (by decide))
    1000 (by decide)

end TC
